import Mathlib

/-!
Verification of the aggregation and scoring core of the
"Mood of the Internet" analytics module (analytics.py).

The per-document label table (a pandas DataFrame with columns
`sentiment`, `emotion` and optionally `topic`) is embedded as a list of
document records plus a flag recording whether the `topic` column is
present.  Percentages are modelled exactly as rational numbers; Python's
`round(x, 1)` (round half to even) is modelled by `round1`.
-/

namespace Mood

/-- Python's round-half-to-even on a rational, to the nearest integer. -/
def pyRound (q : ℚ) : ℤ :=
  if Int.fract q < 1/2 then ⌊q⌋
  else if 1/2 < Int.fract q then ⌊q⌋ + 1
  else if ⌊q⌋ % 2 = 0 then ⌊q⌋ else ⌊q⌋ + 1

/-- Python's `round(q, 1)`: round to one decimal place, half to even. -/
def round1 (q : ℚ) : ℚ := (pyRound (10 * q) : ℚ) / 10

/-- One row of the per-document label table. -/
structure Doc where
  sentiment : String
  emotion : String
  topic : Int

/-- The label table: the corpus rows, plus whether the `topic` column exists. -/
structure Df where
  docs : List Doc
  hasTopic : Bool

/-- Number of occurrences of label `x` in a column. -/
def countLabel (l : List String) (x : String) : ℕ :=
  (l.filter (fun s => s == x)).length

/-- Distinct values of a column in order of first appearance
(pandas `unique` / the index set of `value_counts`). -/
def firstOccs {α : Type} [DecidableEq α] : List α → List α
  | [] => []
  | a :: l => a :: (firstOccs l).filter (fun b => b != a)

/-- Insert into a sorted list, keeping `x` before later equal elements
(`le x y = true` means `x` may come before `y`). -/
def insertBy {α : Type} (le : α → α → Bool) (x : α) : List α → List α
  | [] => [x]
  | y :: ys => if le x y then x :: y :: ys else y :: insertBy le x ys

/-- Stable insertion sort by the boolean relation `le`. -/
def sortBy {α : Type} (le : α → α → Bool) : List α → List α
  | [] => []
  | x :: xs => insertBy le x (sortBy le xs)

/-- pandas `value_counts(normalize=True) * 100` on a column of labels:
each distinct label with its exact percentage of the column, sorted by
count descending (ties in first-appearance order). -/
def value_counts_pct (l : List String) : List (String × ℚ) :=
  sortBy (fun x y => decide (y.2 ≤ x.2))
    ((firstOccs l).map (fun s => (s, (countLabel l s : ℚ) / (l.length : ℚ) * 100)))

/-- `compute_distributions`: sentiment and emotion percentage distributions. -/
def compute_distributions (df : Df) : List (String × ℚ) × List (String × ℚ) :=
  (value_counts_pct (df.docs.map Doc.sentiment),
   value_counts_pct (df.docs.map Doc.emotion))

/-- `Series.get(key, 0)`: look a label up in a distribution, defaulting to 0. -/
def dget (d : List (String × ℚ)) (k : String) : ℚ := (d.lookup k).getD 0

/-- The fixed list of negative emotions used by the mood scorer. -/
def neg_emotions : List String := ["anger", "disgust", "fear", "sadness"]

/-- `mood_score`: overall mood score in [0, 100].  The Python literal `0.3`
denotes the decimal constant 3/10 in this rational model. -/
def mood_score (sentiment_pct emotion_pct : List (String × ℚ)) : ℚ :=
  let positive := dget sentiment_pct "POSITIVE"
  let negative := dget sentiment_pct "NEGATIVE"
  let emotion_penalty := (neg_emotions.map (fun e => dget emotion_pct e)).sum / 4
  let base_score := positive - negative
  let adjusted_score := base_score - emotion_penalty * (3/10)
  let final_score := max 0 (min 100 (50 + adjusted_score / 2))
  round1 final_score

/-- pandas `Series.max` on the values of a nonempty series (0 on empty,
which the callers below never use). -/
def listMax : List ℚ → ℚ
  | [] => 0
  | a :: l => l.foldl max a

/-- pandas `Series.min` on the values of a nonempty series. -/
def listMin : List ℚ → ℚ
  | [] => 0
  | a :: l => l.foldl min a

/-- `volatility_index`: emotional volatility of the emotion distribution. -/
def volatility_index (emotion_pct : List (String × ℚ)) : ℚ :=
  if emotion_pct.isEmpty then 0
  else
    let values := emotion_pct.map Prod.snd
    let concentration := (listMax values - listMin values) / 100
    round1 (100 * (1 - concentration))

/-- One row of the output of `topic_emotion_correlation`. -/
structure CorrEntry where
  topic : Int
  emotion : String
  percentage : ℚ

/-- `topic_emotion_correlation`: per-topic emotion distribution, skipping the
outlier topic -1; `none` when the table has no `topic` column. -/
def topic_emotion_correlation (df : Df) : Option (List CorrEntry) :=
  if df.hasTopic = false then none
  else
    some ((firstOccs (df.docs.map Doc.topic)).flatMap (fun topic_id =>
      if topic_id = -1 then []
      else
        let topic_docs := df.docs.filter (fun d => d.topic == topic_id)
        let emotion_dist := value_counts_pct (topic_docs.map Doc.emotion)
        emotion_dist.map (fun p =>
          { topic := topic_id, emotion := p.1, percentage := round1 p.2 })))

/-- One row of the externally supplied topic-info table. -/
structure TIRow where
  Topic : Int
  Name : Option String

/-- One Topic Summary produced by `detect_narratives`. -/
structure Narrative where
  topic_id : Int
  narrative : String
  document_count : ℕ
  sentiment_score : ℚ
  dominant_emotion : String
  positive_pct : ℚ
  negative_pct : ℚ

/-- Count of the most frequent label in a column. -/
def maxLabelCount (l : List String) : ℕ :=
  ((firstOccs l).map (countLabel l)).foldr max 0

/-- Lexicographic order on lists of characters (Python string comparison). -/
def charListLe : List Char → List Char → Bool
  | [], _ => true
  | _ :: _, [] => false
  | a :: as, b :: bs => if a < b then true else if b < a then false else charListLe as bs

/-- Python's `<=` on strings: lexicographic comparison by code point. -/
def strLe (a b : String) : Bool := charListLe a.data b.data

/-- pandas `Series.mode`: all labels attaining the maximum count, sorted
in ascending label order. -/
def seriesMode (l : List String) : List String :=
  sortBy strLe
    ((firstOccs l).filter (fun s => countLabel l s == maxLabelCount l))

/-- `detect_narratives`: one Topic Summary per topic-info row whose topic is
not -1 and matches at least one document, sorted by document count
descending.  When no summary survives, the source builds
`pd.DataFrame([])` and calls `sort_values("document_count")` on it, which
raises `KeyError`; that failure is the `Except.error` branch. -/
def detect_narratives (df : Df) (topic_info : Option (List TIRow)) :
    Except String (Option (List Narrative)) :=
  match topic_info with
  | none => Except.ok none
  | some rows =>
    if df.hasTopic = false then Except.ok none
    else
      let narratives := rows.flatMap (fun row =>
        if row.Topic = -1 then []
        else
          let topic_docs := df.docs.filter (fun d => d.topic == row.Topic)
          if topic_docs.length = 0 then []
          else
            let topic_name := (row.Name).getD ("Topic " ++ toString row.Topic)
            let pos_count :=
              (topic_docs.filter (fun d => d.sentiment == "POSITIVE")).length
            let neg_count :=
              (topic_docs.filter (fun d => d.sentiment == "NEGATIVE")).length
            let total := topic_docs.length
            let sentiment_ratio :=
              if 0 < total then ((pos_count : ℚ) - (neg_count : ℚ)) / (total : ℚ)
              else 0
            let dominant_emotion :=
              if 0 < topic_docs.length then
                (seriesMode (topic_docs.map Doc.emotion)).headI
              else "neutral"
            [{ topic_id := row.Topic
               narrative := topic_name
               document_count := total
               sentiment_score := round1 (sentiment_ratio * 100)
               dominant_emotion := dominant_emotion
               positive_pct :=
                 if 0 < total then round1 ((pos_count : ℚ) / (total : ℚ) * 100)
                 else 0
               negative_pct :=
                 if 0 < total then round1 ((neg_count : ℚ) / (total : ℚ) * 100)
                 else 0 }])
      match narratives with
      | [] => Except.error "KeyError: document_count"
      | n :: ns =>
        Except.ok (some
          (sortBy (fun x y => decide (y.document_count ≤ x.document_count))
            (n :: ns)))

/-- Rendering of a rational in an insight string (Python float formatting,
abstracted). -/
def fmtQ (q : ℚ) : String := toString q

/-- pandas `Series.idxmax` on a series given as key-value pairs: the first
key attaining the maximum value. -/
def seriesIdxmaxAux (best : String × ℚ) : List (String × ℚ) → String
  | [] => best.1
  | p :: rest =>
    if best.2 < p.2 then seriesIdxmaxAux p rest else seriesIdxmaxAux best rest

/-- pandas `Series.idxmax`, empty series case unused by the caller below. -/
def seriesIdxmax : List (String × ℚ) → String
  | [] => "neutral"
  | p :: rest => seriesIdxmaxAux p rest

/-- `get_insights`: the ordered list of human-readable insight strings.
Thousands separators and float formats are abstracted by `toString`/`fmtQ`. -/
def get_insights (df : Df) (sentiment_pct emotion_pct : List (String × ℚ))
    (mood : ℚ) (narratives : Option (List Narrative)) : List String :=
  let moodInsight :=
    if 70 ≤ mood then
      "🟢 **Highly Positive Mood**: Overall sentiment is very optimistic ("
        ++ fmtQ mood ++ "/100)"
    else if 50 ≤ mood then
      "🟡 **Moderately Positive**: Sentiment leans positive but with some concerns ("
        ++ fmtQ mood ++ "/100)"
    else if 30 ≤ mood then
      "🟠 **Mixed Sentiment**: Balanced between positive and negative signals ("
        ++ fmtQ mood ++ "/100)"
    else
      "🔴 **Negative Mood**: Predominately negative sentiment detected ("
        ++ fmtQ mood ++ "/100)"
  let dominant_emotion :=
    if emotion_pct.isEmpty then "neutral" else seriesIdxmax emotion_pct
  let emotion_strength :=
    if emotion_pct.isEmpty then 0 else listMax (emotion_pct.map Prod.snd)
  let emotionInsight :=
    if 40 < emotion_strength then
      "**Strong Emotional Signal**: " ++ dominant_emotion.capitalize
        ++ " dominates (" ++ fmtQ emotion_strength ++ "% of responses)"
    else
      "**Diverse Emotions**: No single emotion dominates, indicating varied reactions"
  let volumeInsight :=
    "**Sample Size**: " ++ toString df.docs.length ++ " texts analyzed"
  let base := [moodInsight, emotionInsight, volumeInsight]
  match narratives with
  | some (top :: _) =>
    base ++ ["**Top Narrative**: " ++ top.narrative ++ " ("
      ++ toString top.document_count ++ " mentions, "
      ++ fmtQ top.sentiment_score ++ "% sentiment)"]
  | _ => base

/-- The tie-break described by the specification for the dominant emotion:
the first label to reach the maximum count in the selection's insertion
order (this is NOT what `Series.mode()[0]` does; it is stated here to be
compared against the code). -/
def firstModeInsertion (l : List String) : String :=
  ((firstOccs l).filter (fun s => countLabel l s == maxLabelCount l)).headI

/-- The four-document corpus of the end-to-end scenario: sentiments
POSITIVE, POSITIVE, NEGATIVE, NEUTRAL; emotions joy, joy, anger, neutral;
no topics. -/
def df4 : Df :=
  { docs := [ { sentiment := "POSITIVE", emotion := "joy", topic := -1 }
            , { sentiment := "POSITIVE", emotion := "joy", topic := -1 }
            , { sentiment := "NEGATIVE", emotion := "anger", topic := -1 }
            , { sentiment := "NEUTRAL", emotion := "neutral", topic := -1 } ]
  , hasTopic := false }

/-- A three-document corpus whose emotion percentages (200/3 and 100/3)
are not representable to one decimal place. -/
def df3 : Df :=
  { docs := [ { sentiment := "POSITIVE", emotion := "joy", topic := -1 }
            , { sentiment := "POSITIVE", emotion := "joy", topic := -1 }
            , { sentiment := "NEGATIVE", emotion := "anger", topic := -1 } ]
  , hasTopic := false }

/-- A corpus with a topic column whose only document is an outlier. -/
def dfC5 : Df :=
  { docs := [ { sentiment := "POSITIVE", emotion := "joy", topic := -1 } ]
  , hasTopic := true }

/-- A two-document topic-0 corpus whose emotions joy and anger tie at one
occurrence each; insertion order puts joy first, alphabetical order anger. -/
def dfC6 : Df :=
  { docs := [ { sentiment := "POSITIVE", emotion := "joy", topic := 0 }
            , { sentiment := "POSITIVE", emotion := "anger", topic := 0 } ]
  , hasTopic := true }

instance : Inhabited CorrEntry := ⟨{ topic := 0, emotion := "", percentage := 0 }⟩

instance : Inhabited Narrative :=
  ⟨{ topic_id := 0, narrative := "", document_count := 0, sentiment_score := 0,
     dominant_emotion := "", positive_pct := 0, negative_pct := 0 }⟩

/-- A one-document corpus with topic 0, used to instantiate theorems at a
concrete input. -/
def dfT1 : Df :=
  { docs := [ { sentiment := "POSITIVE", emotion := "joy", topic := 0 } ]
  , hasTopic := true }

/-- The narrative list `detect_narratives` produces on `dfC6`. -/
def lC6 : List Narrative :=
  match detect_narratives dfC6 (some [ { Topic := 0, Name := none } ]) with
  | Except.ok (some l) => l
  | _ => []

/-- The correlation table `topic_emotion_correlation` produces on `dfT1`. -/
def esT1 : List CorrEntry :=
  match topic_emotion_correlation dfT1 with
  | some es => es
  | none => []

/-- The narrative list `detect_narratives` produces on `dfT1`. -/
def lT1 : List Narrative :=
  match detect_narratives dfT1 (some [ { Topic := 0, Name := none } ]) with
  | Except.ok (some l) => l
  | _ => []

/-! ### Properties of the rounding function -/

theorem floor_le_pyRound (q : ℚ) : ⌊q⌋ ≤ pyRound q := by
  unfold pyRound
  split_ifs <;> omega

theorem pyRound_le_floor_add_one (q : ℚ) : pyRound q ≤ ⌊q⌋ + 1 := by
  unfold pyRound
  split_ifs <;> omega

theorem pyRound_mono {q r : ℚ} (h : q ≤ r) : pyRound q ≤ pyRound r := by
  have hf : ⌊q⌋ ≤ ⌊r⌋ := Int.floor_mono h
  by_cases hlt : ⌊q⌋ < ⌊r⌋
  · calc pyRound q ≤ ⌊q⌋ + 1 := pyRound_le_floor_add_one q
      _ ≤ ⌊r⌋ := by omega
      _ ≤ pyRound r := floor_le_pyRound r
  · have heq : ⌊q⌋ = ⌊r⌋ := by omega
    have hfr : Int.fract q ≤ Int.fract r := by
      simp only [Int.fract, heq]
      linarith
    unfold pyRound
    rw [heq]
    split_ifs <;> first | omega | linarith

theorem pyRound_intCast (n : ℤ) : pyRound (n : ℚ) = n := by
  unfold pyRound
  simp [Int.fract_intCast]

theorem round1_mono {q r : ℚ} (h : q ≤ r) : round1 q ≤ round1 r := by
  unfold round1
  have := pyRound_mono (by linarith : 10 * q ≤ 10 * r)
  have : ((pyRound (10 * q) : ℚ)) ≤ (pyRound (10 * r) : ℚ) := by exact_mod_cast this
  linarith

theorem round1_zero : round1 0 = 0 := by
  have : pyRound ((0 : ℤ) : ℚ) = 0 := pyRound_intCast 0
  simp only [round1, mul_zero]
  rw [show ((0 : ℚ)) = ((0 : ℤ) : ℚ) by norm_num, this]
  norm_num

theorem round1_hundred : round1 100 = 100 := by
  have : pyRound ((1000 : ℤ) : ℚ) = 1000 := pyRound_intCast 1000
  simp only [round1]
  rw [show ((10 : ℚ) * 100) = ((1000 : ℤ) : ℚ) by norm_num, this]
  norm_num

theorem round1_nonneg {q : ℚ} (h : 0 ≤ q) : 0 ≤ round1 q := by
  have := round1_mono h
  rw [round1_zero] at this
  exact this

theorem round1_le_hundred {q : ℚ} (h : q ≤ 100) : round1 q ≤ 100 := by
  have := round1_mono h
  rw [round1_hundred] at this
  exact this

theorem pyRound_add_le {x y : ℚ} (h : x + y ≤ 1000) :
    pyRound x + pyRound y ≤ 1000 := by
  have hfx : (⌊x⌋ : ℚ) + Int.fract x = x := Int.floor_add_fract x
  have hfy : (⌊y⌋ : ℚ) + Int.fract y = y := Int.floor_add_fract y
  have hx0 : 0 ≤ Int.fract x := Int.fract_nonneg x
  have hy0 : 0 ≤ Int.fract y := Int.fract_nonneg y
  have hsum : (⌊x⌋ : ℚ) + ⌊y⌋ + Int.fract x + Int.fract y ≤ 1000 := by linarith
  have hdown : ⌊x⌋ + ⌊y⌋ ≤ 1000 := by
    have : ((⌊x⌋ + ⌊y⌋ : ℤ) : ℚ) ≤ 1000 := by push_cast; linarith
    exact_mod_cast this
  have hone : ∀ {f : ℚ}, f = Int.fract x ∨ f = Int.fract y → 1/2 ≤ f →
      ⌊x⌋ + ⌊y⌋ + 1 ≤ 1000 := by
    intro f hf hhalf
    have : ((⌊x⌋ + ⌊y⌋ : ℤ) : ℚ) < 1000 := by
      rcases hf with rfl | rfl <;> push_cast <;> linarith
    have : (⌊x⌋ + ⌊y⌋ : ℤ) < 1000 := by exact_mod_cast this
    omega
  have htwo : 1/2 ≤ Int.fract x → 1/2 ≤ Int.fract y →
      1 < Int.fract x + Int.fract y → ⌊x⌋ + ⌊y⌋ + 2 ≤ 1000 := by
    intro _ _ hgt
    have : ((⌊x⌋ + ⌊y⌋ : ℤ) : ℚ) < 999 := by push_cast; linarith
    have : (⌊x⌋ + ⌊y⌋ : ℤ) < 999 := by exact_mod_cast this
    omega
  have hhalf : Int.fract x = 1/2 → Int.fract y = 1/2 →
      ⌊x⌋ % 2 ≠ 0 → ⌊y⌋ % 2 ≠ 0 → ⌊x⌋ + ⌊y⌋ + 2 ≤ 1000 := by
    intro h1 h2 hox hoy
    have : ((⌊x⌋ + ⌊y⌋ : ℤ) : ℚ) ≤ 999 := by push_cast; linarith
    have : (⌊x⌋ + ⌊y⌋ : ℤ) ≤ 999 := by exact_mod_cast this
    omega
  unfold pyRound
  split_ifs <;>
    first
      | (have h1 := htwo (by linarith) (by linarith) (by linarith); omega)
      | (have h1 := hhalf (by linarith) (by linarith) (by assumption) (by assumption);
         omega)
      | (have h1 := hone (Or.inl rfl) (by linarith); omega)
      | (have h1 := hone (Or.inr rfl) (by linarith); omega)
      | (have h1 := hdown; omega)

theorem round1_add_le_hundred {a b : ℚ} (h : a + b ≤ 100) :
    round1 a + round1 b ≤ 100 := by
  have h10 : 10 * a + 10 * b ≤ 1000 := by linarith
  have := pyRound_add_le h10
  have hq : ((pyRound (10 * a) + pyRound (10 * b) : ℤ) : ℚ) ≤ 1000 := by
    exact_mod_cast this
  unfold round1
  push_cast at hq
  linarith

/-! ### Properties of the stable insertion sort and of `firstOccs` -/

theorem insertBy_perm {α : Type} (le : α → α → Bool) (x : α) (l : List α) :
    (insertBy le x l).Perm (x :: l) := by
  induction l with
  | nil => simp [insertBy]
  | cons y ys ih =>
    unfold insertBy
    split_ifs
    · exact List.Perm.refl _
    · exact (List.Perm.cons y ih).trans (List.Perm.swap x y ys)

theorem sortBy_perm {α : Type} (le : α → α → Bool) (l : List α) :
    (sortBy le l).Perm l := by
  induction l with
  | nil => simp [sortBy]
  | cons x xs ih =>
    exact ((insertBy_perm le x (sortBy le xs)).trans (List.Perm.cons x ih))

theorem mem_sortBy {α : Type} {le : α → α → Bool} {a : α} {l : List α} :
    a ∈ sortBy le l ↔ a ∈ l :=
  (sortBy_perm le l).mem_iff

theorem mem_insertBy {α : Type} {le : α → α → Bool} {a x : α} {l : List α} :
    a ∈ insertBy le x l ↔ a = x ∨ a ∈ l := by
  rw [(insertBy_perm le x l).mem_iff, List.mem_cons]

theorem sortBy_eq_nil_iff {α : Type} {le : α → α → Bool} {l : List α} :
    sortBy le l = [] ↔ l = [] := by
  constructor
  · intro h
    have := (sortBy_perm le l).length_eq
    rw [h] at this
    exact List.eq_nil_of_length_eq_zero this.symm
  · intro h
    rw [h]
    rfl

theorem headI_insertBy_min {α : Type} [Inhabited α] (le : α → α → Bool)
    (hrefl : ∀ a, le a a = true)
    (htrans : ∀ a b c, le a b = true → le b c = true → le a c = true)
    (htotal : ∀ a b, le a b = true ∨ le b a = true)
    (x : α) (m : List α)
    (hm : ∀ y ∈ m, le m.headI y = true) :
    ∀ y ∈ insertBy le x m, le (insertBy le x m).headI y = true := by
  match m with
  | [] =>
    intro y hy
    simp only [insertBy, List.mem_singleton] at hy
    subst hy
    simpa using hrefl y
  | b :: bs =>
    intro y hy
    by_cases hxb : le x b = true
    · rw [show insertBy le x (b :: bs) = x :: b :: bs by simp [insertBy, hxb]] at hy ⊢
      simp only [List.headI]
      rcases List.mem_cons.mp hy with rfl | hy2
      · exact hrefl y
      · rcases List.mem_cons.mp hy2 with rfl | hy3
        · exact hxb
        · exact htrans x b y hxb (hm y (List.mem_cons_of_mem b hy3))
    · rw [show insertBy le x (b :: bs) = b :: insertBy le x bs by
        simp [insertBy, hxb]] at hy ⊢
      simp only [List.headI]
      rcases List.mem_cons.mp hy with rfl | hy2
      · exact hrefl y
      · rcases mem_insertBy.mp hy2 with rfl | hy3
        · rcases htotal y b with hc | hc
          · exact absurd hc hxb
          · exact hc
        · exact hm y (List.mem_cons_of_mem b hy3)

theorem headI_sortBy_min {α : Type} [Inhabited α] (le : α → α → Bool)
    (hrefl : ∀ a, le a a = true)
    (htrans : ∀ a b c, le a b = true → le b c = true → le a c = true)
    (htotal : ∀ a b, le a b = true ∨ le b a = true)
    (l : List α) :
    ∀ y ∈ sortBy le l, le (sortBy le l).headI y = true := by
  induction l with
  | nil => intro y hy; simp [sortBy] at hy
  | cons x xs ih =>
    show ∀ y ∈ insertBy le x (sortBy le xs), _
    exact headI_insertBy_min le hrefl htrans htotal x (sortBy le xs) ih

theorem mem_firstOccs {α : Type} [DecidableEq α] {x : α} {l : List α} :
    x ∈ firstOccs l ↔ x ∈ l := by
  induction l with
  | nil => simp [firstOccs]
  | cons a as ih =>
    unfold firstOccs
    simp only [List.mem_cons, List.mem_filter, bne_iff_ne, ne_eq, ih]
    by_cases hx : x = a
    · simp [hx]
    · simp [hx]

/-! ### Properties of label counts and of the mode -/

theorem countLabel_pos {s : String} {l : List String} (h : s ∈ l) :
    0 < countLabel l s := by
  unfold countLabel
  rw [List.length_pos]
  intro hnil
  have : s ∈ l.filter (fun t => t == s) := by
    rw [List.mem_filter]
    exact ⟨h, by simp⟩
  rw [hnil] at this
  exact absurd this (List.not_mem_nil s)

theorem le_foldr_max {a : ℕ} {l : List ℕ} (h : a ∈ l) : a ≤ l.foldr max 0 := by
  induction l with
  | nil => exact absurd h (List.not_mem_nil a)
  | cons b bs ih =>
    rcases List.mem_cons.mp h with rfl | hmem
    · exact le_max_left _ _
    · exact le_trans (ih hmem) (le_max_right _ _)

theorem foldr_max_mem (l : List ℕ) : l.foldr max 0 = 0 ∨ l.foldr max 0 ∈ l := by
  induction l with
  | nil => exact Or.inl rfl
  | cons b bs ih =>
    rcases max_choice b (bs.foldr max 0) with h | h
    · right
      rw [List.foldr_cons, h]
      exact List.mem_cons_self b bs
    · rw [List.foldr_cons, h]
      rcases ih with h0 | hm
      · exact Or.inl h0
      · exact Or.inr (List.mem_cons_of_mem b hm)

theorem countLabel_le_maxLabelCount {s : String} {l : List String} (h : s ∈ l) :
    countLabel l s ≤ maxLabelCount l := by
  unfold maxLabelCount
  exact le_foldr_max (List.mem_map_of_mem (countLabel l) (mem_firstOccs.mpr h))

theorem maxLabelCount_attained {l : List String} (h : l ≠ []) :
    ∃ s ∈ firstOccs l, countLabel l s = maxLabelCount l := by
  rcases foldr_max_mem ((firstOccs l).map (countLabel l)) with h0 | hm
  · exfalso
    match l, h with
    | a :: as, _ =>
      have ha : a ∈ (a :: as) := List.mem_cons_self a as
      have h1 : 0 < countLabel (a :: as) a := countLabel_pos ha
      have h2 := countLabel_le_maxLabelCount ha
      unfold maxLabelCount at h2
      omega
  · rcases List.mem_map.mp hm with ⟨s, hs, hcount⟩
    exact ⟨s, hs, hcount⟩

theorem charListLe_refl (l : List Char) : charListLe l l = true := by
  induction l with
  | nil => rfl
  | cons a as ih => simp [charListLe, lt_irrefl, ih]

theorem charListLe_total (l m : List Char) :
    charListLe l m = true ∨ charListLe m l = true := by
  induction l generalizing m with
  | nil => exact Or.inl rfl
  | cons a as ih =>
    match m with
    | [] => exact Or.inr rfl
    | b :: bs =>
      rcases lt_trichotomy a b with h | h | h
      · left
        simp [charListLe, h]
      · subst h
        rcases ih bs with hc | hc
        · left
          simp [charListLe, lt_irrefl, hc]
        · right
          simp [charListLe, lt_irrefl, hc]
      · right
        simp [charListLe, h]

theorem charListLe_trans {l m k : List Char} (h1 : charListLe l m = true)
    (h2 : charListLe m k = true) : charListLe l k = true := by
  induction l generalizing m k with
  | nil => rfl
  | cons a as ih =>
    match m, k with
    | [], _ => simp [charListLe] at h1
    | _ :: _, [] => simp [charListLe] at h2
    | b :: bs, c :: cs =>
      by_cases hab : a < b
      · by_cases hbc : b < c
        · simp [charListLe, lt_trans hab hbc]
        · by_cases hcb : c < b
          · simp [charListLe, hbc, hcb] at h2
          · have : b = c := le_antisymm (not_lt.mp hcb) (not_lt.mp hbc)
            subst this
            simp [charListLe, hab]
      · by_cases hba : b < a
        · simp [charListLe, hab, hba] at h1
        · have hae : a = b := le_antisymm (not_lt.mp hba) (not_lt.mp hab)
          subst hae
          simp only [charListLe, lt_irrefl, if_false] at h1
          by_cases hbc : a < c
          · simp [charListLe, hbc]
          · by_cases hcb : c < a
            · simp [charListLe, hbc, hcb] at h2
            · have : a = c := le_antisymm (not_lt.mp hcb) (not_lt.mp hbc)
              subst this
              simp only [charListLe, lt_irrefl, if_false] at h2 ⊢
              exact ih h1 h2

theorem strLe_refl (a : String) : strLe a a = true := charListLe_refl a.data

theorem strLe_total (a b : String) : strLe a b = true ∨ strLe b a = true :=
  charListLe_total a.data b.data

theorem strLe_trans {a b c : String} (h1 : strLe a b = true)
    (h2 : strLe b c = true) : strLe a c = true :=
  charListLe_trans h1 h2

theorem headI_mem_of_ne_nil {α : Type} [Inhabited α] {l : List α} (h : l ≠ []) :
    l.headI ∈ l := by
  match l, h with
  | a :: as, _ => exact List.mem_cons_self a as

/-- The head of `seriesMode` on a nonempty column is an observed label of
maximal count, lexicographically least among the labels of maximal count. -/
theorem seriesMode_headI_spec {l : List String} (h : l ≠ []) :
    (seriesMode l).headI ∈ l ∧
    countLabel l (seriesMode l).headI = maxLabelCount l ∧
    ∀ s ∈ l, countLabel l s = maxLabelCount l →
      strLe (seriesMode l).headI s = true := by
  have hne : seriesMode l ≠ [] := by
    unfold seriesMode
    rw [ne_eq, sortBy_eq_nil_iff]
    intro hnil
    rcases maxLabelCount_attained h with ⟨s, hs, hcount⟩
    have : s ∈ (firstOccs l).filter (fun t => countLabel l t == maxLabelCount l) := by
      rw [List.mem_filter]
      exact ⟨hs, by simp [hcount]⟩
    rw [hnil] at this
    exact absurd this (List.not_mem_nil s)
  have hhead : (seriesMode l).headI ∈ seriesMode l := headI_mem_of_ne_nil hne
  have hmem := mem_sortBy.mp hhead
  rw [List.mem_filter] at hmem
  obtain ⟨hocc, hcnt⟩ := hmem
  have hcnt2 : countLabel l (seriesMode l).headI = maxLabelCount l := by
    simpa using hcnt
  refine ⟨mem_firstOccs.mp hocc, hcnt2, ?_⟩
  intro s hs hsmax
  have hsfil : s ∈ (firstOccs l).filter
      (fun t => countLabel l t == maxLabelCount l) := by
    rw [List.mem_filter]
    exact ⟨mem_firstOccs.mpr hs, by simp [hsmax]⟩
  have hssorted : s ∈ seriesMode l := mem_sortBy.mpr hsfil
  exact headI_sortBy_min strLe strLe_refl (fun a b c => strLe_trans)
    strLe_total _ s hssorted

/-! ### Properties of `value_counts_pct` and of disjoint filters -/

theorem mem_value_counts_pct {l : List String} {p : String × ℚ}
    (h : p ∈ value_counts_pct l) :
    p.1 ∈ l ∧ p.2 = (countLabel l p.1 : ℚ) / (l.length : ℚ) * 100 := by
  unfold value_counts_pct at h
  rw [mem_sortBy] at h
  rcases List.mem_map.mp h with ⟨s, hs, hp⟩
  rw [← hp]
  exact ⟨mem_firstOccs.mp hs, rfl⟩

theorem value_counts_pct_exists {l : List String} {s : String} (h : s ∈ l) :
    (s, (countLabel l s : ℚ) / (l.length : ℚ) * 100) ∈ value_counts_pct l := by
  unfold value_counts_pct
  rw [mem_sortBy]
  exact List.mem_map_of_mem _ (mem_firstOccs.mpr h)

theorem value_counts_pct_nil : value_counts_pct [] = [] := rfl

theorem length_filter_add_length_filter_le {α : Type} (l : List α)
    (p q : α → Bool) (h : ∀ x ∈ l, ¬(p x = true ∧ q x = true)) :
    (l.filter p).length + (l.filter q).length ≤ l.length := by
  induction l with
  | nil => simp
  | cons a as ih =>
    have hih := ih (fun x hx => h x (List.mem_cons_of_mem a hx))
    have ha := h a (List.mem_cons_self a as)
    by_cases hp : p a = true <;> by_cases hq : q a = true
    · exact absurd ⟨hp, hq⟩ ha
    · simp [List.filter_cons, hp, hq]
      omega
    · simp [List.filter_cons, hp, hq]
      omega
    · simp [List.filter_cons, hp, hq]
      omega

/-! ### Extremal values of a series -/

theorem foldl_max_mem (a : ℚ) (l : List ℚ) : l.foldl max a ∈ a :: l := by
  induction l generalizing a with
  | nil => simp
  | cons b bs ih =>
    rw [List.foldl_cons]
    rcases List.mem_cons.mp (ih (max a b)) with h | h
    · rw [h]
      rcases max_choice a b with hm | hm <;> rw [hm] <;> simp
    · simp [h]

theorem le_foldl_max (a : ℚ) (l : List ℚ) : ∀ b ∈ a :: l, b ≤ l.foldl max a := by
  induction l generalizing a with
  | nil =>
    intro b hb
    rw [List.mem_singleton] at hb
    rw [hb]
    rfl
  | cons c cs ih =>
    intro b hb
    rw [List.foldl_cons]
    rcases List.mem_cons.mp hb with rfl | hb2
    · exact le_trans (le_max_left b c) (ih (max b c) _ (List.mem_cons_self _ _))
    · rcases List.mem_cons.mp hb2 with rfl | hb3
      · exact le_trans (le_max_right a b) (ih (max a b) _ (List.mem_cons_self _ _))
      · exact ih (max a c) b (List.mem_cons_of_mem _ hb3)

theorem foldl_min_mem (a : ℚ) (l : List ℚ) : l.foldl min a ∈ a :: l := by
  induction l generalizing a with
  | nil => simp
  | cons b bs ih =>
    rw [List.foldl_cons]
    rcases List.mem_cons.mp (ih (min a b)) with h | h
    · rw [h]
      rcases min_choice a b with hm | hm <;> rw [hm] <;> simp
    · simp [h]

theorem foldl_min_le (a : ℚ) (l : List ℚ) : ∀ b ∈ a :: l, l.foldl min a ≤ b := by
  induction l generalizing a with
  | nil =>
    intro b hb
    rw [List.mem_singleton] at hb
    rw [hb]
    rfl
  | cons c cs ih =>
    intro b hb
    rw [List.foldl_cons]
    rcases List.mem_cons.mp hb with rfl | hb2
    · exact le_trans (ih (min b c) _ (List.mem_cons_self _ _)) (min_le_left b c)
    · rcases List.mem_cons.mp hb2 with rfl | hb3
      · exact le_trans (ih (min a b) _ (List.mem_cons_self _ _)) (min_le_right a b)
      · exact ih (min a c) b (List.mem_cons_of_mem _ hb3)

theorem listMax_mem {d : List ℚ} (h : d ≠ []) : listMax d ∈ d := by
  match d, h with
  | a :: l, _ => exact foldl_max_mem a l

theorem le_listMax {d : List ℚ} (h : d ≠ []) : ∀ v ∈ d, v ≤ listMax d := by
  match d, h with
  | a :: l, _ => exact fun v hv => le_foldl_max a l v hv

theorem listMin_mem {d : List ℚ} (h : d ≠ []) : listMin d ∈ d := by
  match d, h with
  | a :: l, _ => exact foldl_min_mem a l

theorem listMin_le {d : List ℚ} (h : d ≠ []) : ∀ v ∈ d, listMin d ≤ v := by
  match d, h with
  | a :: l, _ => exact fun v hv => foldl_min_le a l v hv

/-! ### Destructuring the output of `detect_narratives` -/

/-- Every Topic Summary in a successful `detect_narratives` output was built
from the nonempty selection of documents bearing its topic id, with the
fields the source computes for that selection. -/
theorem mem_narratives_fields {df : Df} {ti : Option (List TIRow)}
    {l : List Narrative} {n : Narrative}
    (h : detect_narratives df ti = Except.ok (some l)) (hn : n ∈ l) :
    (df.docs.filter (fun d => d.topic == n.topic_id)).length ≠ 0 ∧
    n.document_count = (df.docs.filter (fun d => d.topic == n.topic_id)).length ∧
    n.dominant_emotion =
      (seriesMode ((df.docs.filter (fun d => d.topic == n.topic_id)).map
        Doc.emotion)).headI ∧
    n.positive_pct = round1
      ((((df.docs.filter (fun d => d.topic == n.topic_id)).filter
          (fun d => d.sentiment == "POSITIVE")).length : ℚ) /
        ((df.docs.filter (fun d => d.topic == n.topic_id)).length : ℚ) * 100) ∧
    n.negative_pct = round1
      ((((df.docs.filter (fun d => d.topic == n.topic_id)).filter
          (fun d => d.sentiment == "NEGATIVE")).length : ℚ) /
        ((df.docs.filter (fun d => d.topic == n.topic_id)).length : ℚ) * 100) := by
  match ti with
  | none => simp [detect_narratives] at h
  | some rows =>
    rw [detect_narratives] at h
    by_cases htop : df.hasTopic = false
    · rw [if_pos htop] at h
      simp at h
    · rw [if_neg htop] at h
      simp only [] at h
      split at h
      · simp at h
      · rename_i n0 ns heq
        simp only [Except.ok.injEq, Option.some.injEq] at h
        rw [← h] at hn
        have hnmem := mem_sortBy.mp hn
        rw [← heq] at hnmem
        rcases List.mem_flatMap.mp hnmem with ⟨row, _, hmem⟩
        by_cases hout : row.Topic = -1
        · rw [if_pos hout] at hmem
          exact absurd hmem (List.not_mem_nil n)
        · rw [if_neg hout] at hmem
          by_cases hlen : (df.docs.filter (fun d => d.topic == row.Topic)).length = 0
          · rw [if_pos hlen] at hmem
            exact absurd hmem (List.not_mem_nil n)
          · rw [if_neg hlen] at hmem
            rw [List.mem_singleton] at hmem
            subst hmem
            refine ⟨hlen, rfl, ?_, ?_, ?_⟩
            · show (if 0 < (df.docs.filter (fun d => d.topic == row.Topic)).length
                then _ else _) = _
              rw [if_pos (Nat.pos_of_ne_zero hlen)]
            · show (if 0 < (df.docs.filter (fun d => d.topic == row.Topic)).length
                then _ else _) = _
              rw [if_pos (Nat.pos_of_ne_zero hlen)]
            · show (if 0 < (df.docs.filter (fun d => d.topic == row.Topic)).length
                then _ else _) = _
              rw [if_pos (Nat.pos_of_ne_zero hlen)]

/-! ### The claims -/

/-- C1: on the four-document corpus with sentiments POSITIVE, POSITIVE,
NEGATIVE, NEUTRAL and emotions joy, joy, anger, neutral, the pipeline
yields sentiment distribution POSITIVE 50, NEGATIVE 25, NEUTRAL 25,
emotion distribution joy 50, anger 25, neutral 25, mood score exactly
61.6 and volatility exactly 75.0. -/
theorem C1_end_to_end_scenario :
    dget (compute_distributions df4).1 "POSITIVE" = 50 ∧
    dget (compute_distributions df4).1 "NEGATIVE" = 25 ∧
    dget (compute_distributions df4).1 "NEUTRAL" = 25 ∧
    (compute_distributions df4).1.length = 3 ∧
    dget (compute_distributions df4).2 "joy" = 50 ∧
    dget (compute_distributions df4).2 "anger" = 25 ∧
    dget (compute_distributions df4).2 "neutral" = 25 ∧
    (compute_distributions df4).2.length = 3 ∧
    mood_score (compute_distributions df4).1 (compute_distributions df4).2
      = 61.6 ∧
    volatility_index (compute_distributions df4).2 = 75 := by
  have hocc : firstOccs (df4.docs.map Doc.sentiment)
      = ["POSITIVE", "NEGATIVE", "NEUTRAL"] := by rfl
  have hc1 : countLabel (df4.docs.map Doc.sentiment) "POSITIVE" = 2 := by rfl
  have hc2 : countLabel (df4.docs.map Doc.sentiment) "NEGATIVE" = 1 := by rfl
  have hc3 : countLabel (df4.docs.map Doc.sentiment) "NEUTRAL" = 1 := by rfl
  have hlen : (df4.docs.map Doc.sentiment).length = 4 := by rfl
  have hs : (compute_distributions df4).1
      = [("POSITIVE", 50), ("NEGATIVE", 25), ("NEUTRAL", 25)] := by
    show value_counts_pct (df4.docs.map Doc.sentiment) = _
    rw [value_counts_pct, hocc]
    simp only [List.map_cons, List.map_nil, hc1, hc2, hc3, hlen]
    norm_num [sortBy, insertBy]
  have hocc2 : firstOccs (df4.docs.map Doc.emotion)
      = ["joy", "anger", "neutral"] := by rfl
  have hd1 : countLabel (df4.docs.map Doc.emotion) "joy" = 2 := by rfl
  have hd2 : countLabel (df4.docs.map Doc.emotion) "anger" = 1 := by rfl
  have hd3 : countLabel (df4.docs.map Doc.emotion) "neutral" = 1 := by rfl
  have hlen2 : (df4.docs.map Doc.emotion).length = 4 := by rfl
  have he : (compute_distributions df4).2
      = [("joy", 50), ("anger", 25), ("neutral", 25)] := by
    show value_counts_pct (df4.docs.map Doc.emotion) = _
    rw [value_counts_pct, hocc2]
    simp only [List.map_cons, List.map_nil, hd1, hd2, hd3, hlen2]
    norm_num [sortBy, insertBy]
  refine ⟨by rw [hs]; rfl, by rw [hs]; rfl, by rw [hs]; rfl, by rw [hs]; rfl,
    by rw [he]; rfl, by rw [he]; rfl, by rw [he]; rfl, by rw [he]; rfl, ?_, ?_⟩
  · rw [hs, he]
    have g1 : dget [("POSITIVE", (50:ℚ)), ("NEGATIVE", 25), ("NEUTRAL", 25)]
        "POSITIVE" = 50 := by rfl
    have g2 : dget [("POSITIVE", (50:ℚ)), ("NEGATIVE", 25), ("NEUTRAL", 25)]
        "NEGATIVE" = 25 := by rfl
    have g3 : dget [("joy", (50:ℚ)), ("anger", 25), ("neutral", 25)] "anger"
        = 25 := by rfl
    have g4 : dget [("joy", (50:ℚ)), ("anger", 25), ("neutral", 25)] "disgust"
        = 0 := by rfl
    have g5 : dget [("joy", (50:ℚ)), ("anger", 25), ("neutral", 25)] "fear"
        = 0 := by rfl
    have g6 : dget [("joy", (50:ℚ)), ("anger", 25), ("neutral", 25)] "sadness"
        = 0 := by rfl
    rw [mood_score, neg_emotions]
    simp only [List.map_cons, List.map_nil, List.sum_cons, List.sum_nil,
      g1, g2, g3, g4, g5, g6]
    norm_num [max_def, min_def, round1, pyRound, Int.fract]
  · rw [he]
    norm_num [volatility_index, listMax, listMin, round1, pyRound, Int.fract,
      max_def, min_def]

/-- C2: `mood_score` is monotonically non-decreasing in the POSITIVE
percentage and non-increasing in the NEGATIVE percentage of the sentiment
distribution, all other entries held fixed, and its output is always in
[0, 100]. -/
theorem C2_mood_monotone_and_bounded :
    (∀ s1 s2 e, dget s1 "NEGATIVE" = dget s2 "NEGATIVE" →
      dget s1 "POSITIVE" ≤ dget s2 "POSITIVE" →
      mood_score s1 e ≤ mood_score s2 e) ∧
    (∀ s1 s2 e, dget s1 "POSITIVE" = dget s2 "POSITIVE" →
      dget s2 "NEGATIVE" ≤ dget s1 "NEGATIVE" →
      mood_score s1 e ≤ mood_score s2 e) ∧
    (∀ s e, 0 ≤ mood_score s e ∧ mood_score s e ≤ 100) := by
  have hkey : ∀ s e, mood_score s e = round1 (max 0 (min 100 (50 +
      (dget s "POSITIVE" - dget s "NEGATIVE" -
        ((neg_emotions.map (fun x => dget e x)).sum / 4) * (3/10)) / 2))) :=
    fun s e => rfl
  refine ⟨?_, ?_, ?_⟩
  · intro s1 s2 e hneg hpos
    rw [hkey, hkey]
    apply round1_mono
    apply max_le_max (le_refl 0)
    apply min_le_min (le_refl 100)
    rw [hneg]
    linarith
  · intro s1 s2 e hpos hneg
    rw [hkey, hkey]
    apply round1_mono
    apply max_le_max (le_refl 0)
    apply min_le_min (le_refl 100)
    rw [hpos]
    linarith
  · intro s e
    rw [hkey]
    constructor
    · exact round1_nonneg (le_max_left 0 _)
    · exact round1_le_hundred (max_le (by norm_num) (min_le_left 100 _))

/-- Witness for C2 at concrete distributions. -/
theorem C2_witness :
    mood_score [] [] ≤ mood_score [("POSITIVE", 10)] [] ∧
    mood_score [("NEGATIVE", 10)] [] ≤ mood_score [] [] ∧
    0 ≤ mood_score [] [] ∧ mood_score [] [] ≤ 100 :=
  ⟨C2_mood_monotone_and_bounded.1 [] [("POSITIVE", 10)] [] (by rfl)
      (by simp [dget]),
   C2_mood_monotone_and_bounded.2.1 [("NEGATIVE", 10)] [] [] (by rfl)
      (by simp [dget]),
   C2_mood_monotone_and_bounded.2.2 [] []⟩

/-- C3 counterexample: on the three-document corpus `df3` the emotion
distribution stores the exact percentage 200/3 for joy, while rounding
the percentage 2/3 × 100 to one decimal place gives 66.7; the two differ,
so `compute_distributions` does not round to one decimal place. -/
theorem C3_counterexample :
    dget (compute_distributions df3).2 "joy" = 200/3 ∧
    round1 ((2 : ℚ) / 3 * 100) = 667/10 ∧
    (200/3 : ℚ) ≠ 667/10 := by
  have hocc : firstOccs (df3.docs.map Doc.emotion) = ["joy", "anger"] := by rfl
  have hc1 : countLabel (df3.docs.map Doc.emotion) "joy" = 2 := by rfl
  have hc2 : countLabel (df3.docs.map Doc.emotion) "anger" = 1 := by rfl
  have hlen : (df3.docs.map Doc.emotion).length = 3 := by rfl
  have he : (compute_distributions df3).2 = [("joy", 200/3), ("anger", 100/3)] := by
    show value_counts_pct (df3.docs.map Doc.emotion) = _
    rw [value_counts_pct, hocc]
    simp only [List.map_cons, List.map_nil, hc1, hc2, hlen]
    norm_num [sortBy, insertBy]
  refine ⟨?_, ?_, by norm_num⟩
  · rw [he]
    rfl
  · norm_num [round1, pyRound, Int.fract]

/-- C3 (amended): `compute_distributions` maps each distinct observed label
to its exact percentage of the corpus (count / total × 100, NOT rounded),
and an empty corpus yields empty distributions rather than an error. -/
theorem C3_distributions_exact :
    ∀ df : Df,
      (df.docs = [] →
        (compute_distributions df).1 = [] ∧ (compute_distributions df).2 = []) ∧
      (∀ p ∈ (compute_distributions df).1,
        p.1 ∈ df.docs.map Doc.sentiment ∧
        p.2 = (countLabel (df.docs.map Doc.sentiment) p.1 : ℚ)
          / (df.docs.length : ℚ) * 100) ∧
      (∀ s ∈ df.docs.map Doc.sentiment,
        (s, (countLabel (df.docs.map Doc.sentiment) s : ℚ)
          / (df.docs.length : ℚ) * 100) ∈ (compute_distributions df).1) ∧
      (∀ p ∈ (compute_distributions df).2,
        p.1 ∈ df.docs.map Doc.emotion ∧
        p.2 = (countLabel (df.docs.map Doc.emotion) p.1 : ℚ)
          / (df.docs.length : ℚ) * 100) ∧
      (∀ s ∈ df.docs.map Doc.emotion,
        (s, (countLabel (df.docs.map Doc.emotion) s : ℚ)
          / (df.docs.length : ℚ) * 100) ∈ (compute_distributions df).2) := by
  intro df
  have hlen1 : (df.docs.map Doc.sentiment).length = df.docs.length :=
    List.length_map _ _
  have hlen2 : (df.docs.map Doc.emotion).length = df.docs.length :=
    List.length_map _ _
  refine ⟨?_, ?_, ?_, ?_, ?_⟩
  · intro hnil
    constructor <;> (show value_counts_pct _ = []) <;> rw [hnil] <;> rfl
  · intro p hp
    have := mem_value_counts_pct hp
    rw [hlen1] at this
    exact this
  · intro s hs
    have := value_counts_pct_exists hs
    rw [hlen1] at this
    exact this
  · intro p hp
    have := mem_value_counts_pct hp
    rw [hlen2] at this
    exact this
  · intro s hs
    have := value_counts_pct_exists hs
    rw [hlen2] at this
    exact this

/-- Witness for C3 (amended) on the empty corpus and on `df3`. -/
theorem C3_witness :
    ((compute_distributions { docs := [], hasTopic := false }).1 = [] ∧
     (compute_distributions { docs := [], hasTopic := false }).2 = []) ∧
    ("joy", (countLabel (df3.docs.map Doc.emotion) "joy" : ℚ)
      / (df3.docs.length : ℚ) * 100) ∈ (compute_distributions df3).2 :=
  ⟨(C3_distributions_exact { docs := [], hasTopic := false }).1 rfl,
   (C3_distributions_exact df3).2.2.2.2 "joy" (by decide)⟩

/-- C4 counterexample: a single-category emotion distribution has
max = min, hence concentration 0 and volatility 100, not 0 as claimed. -/
theorem C4_counterexample :
    volatility_index [("joy", 100)] = 100 ∧ (100 : ℚ) ≠ 0 := by
  constructor
  · norm_num [volatility_index, listMax, listMin, round1, pyRound, Int.fract]
  · norm_num

/-- C4 (amended): `volatility_index` computes
round(100 · (1 − (max − min)/100), 1) over the distribution's values; it
returns exactly 0 on the empty distribution, exactly 100 on the
single-category distribution joy 100 (max = min there), and exactly 100
on joy 50, anger 50. -/
theorem C4_volatility_formula :
    volatility_index [] = 0 ∧
    volatility_index [("joy", 100)] = 100 ∧
    volatility_index [("joy", 50), ("anger", 50)] = 100 ∧
    ∀ d : List (String × ℚ), d ≠ [] →
      ∃ mx mn, mx ∈ d.map Prod.snd ∧ mn ∈ d.map Prod.snd ∧
        (∀ v ∈ d.map Prod.snd, v ≤ mx) ∧ (∀ v ∈ d.map Prod.snd, mn ≤ v) ∧
        volatility_index d = round1 (100 * (1 - (mx - mn) / 100)) := by
  refine ⟨by rfl, ?_, ?_, ?_⟩
  · norm_num [volatility_index, listMax, listMin, round1, pyRound, Int.fract]
  · norm_num [volatility_index, listMax, listMin, round1, pyRound, Int.fract,
      max_def, min_def]
  · intro d hd
    have hmapne : d.map Prod.snd ≠ [] := by
      rw [ne_eq, List.map_eq_nil_iff]
      exact hd
    refine ⟨listMax (d.map Prod.snd), listMin (d.map Prod.snd),
      listMax_mem hmapne, listMin_mem hmapne, le_listMax hmapne,
      listMin_le hmapne, ?_⟩
    unfold volatility_index
    rw [if_neg (by rwa [ne_eq, ← List.isEmpty_iff] at hd)]

/-- Witness for C4 (amended) at a concrete two-entry distribution. -/
theorem C4_witness :
    ∃ mx mn, mx ∈ [("joy", (30:ℚ)), ("anger", 70)].map Prod.snd ∧
      mn ∈ [("joy", (30:ℚ)), ("anger", 70)].map Prod.snd ∧
      (∀ v ∈ [("joy", (30:ℚ)), ("anger", 70)].map Prod.snd, v ≤ mx) ∧
      (∀ v ∈ [("joy", (30:ℚ)), ("anger", 70)].map Prod.snd, mn ≤ v) ∧
      volatility_index [("joy", (30:ℚ)), ("anger", 70)]
        = round1 (100 * (1 - (mx - mn) / 100)) :=
  C4_volatility_formula.2.2.2 [("joy", (30:ℚ)), ("anger", 70)] (by simp)

/-- C5 (the code, at the claim's failing input): on a corpus whose topic
column holds only the outlier topic -1 and a Topic Info table whose only
row is topic -1, no summary survives, and `detect_narratives` fails (the
source calls `sort_values("document_count")` on an empty DataFrame, which
raises `KeyError`) instead of returning a defined empty result. -/
theorem C5_detect_narratives_raises :
    detect_narratives dfC5 (some [ { Topic := -1, Name := none } ])
      = Except.error "KeyError: document_count" := rfl

/-- C6 counterexample: on `dfC6` the selection's emotions in insertion
order are joy then anger with tied counts; the claimed tie-break (first
label to reach the maximum count in insertion order) picks joy, but the
code (`mode()[0]`, which sorts the tied labels) picks anger. -/
theorem C6_counterexample :
    (match detect_narratives dfC6 (some [ { Topic := 0, Name := none } ]) with
      | Except.ok (some (n :: _)) => n.dominant_emotion
      | _ => "") = "anger" ∧
    firstModeInsertion ["joy", "anger"] = "joy" ∧
    ("anger" : String) ≠ "joy" :=
  ⟨rfl, rfl, by decide⟩

/-- C6 (amended): for every selection, `dominant_emotion` is a most
frequent emotion label of the selection, and when several labels tie for
the maximum count the one chosen is the lexicographically smallest tied
label (pandas `mode()` sorts the tied labels), not the first in insertion
order. -/
theorem C6_dominant_emotion_lex_mode :
    ∀ (df : Df) (ti : Option (List TIRow)) (l : List Narrative) (n : Narrative),
      detect_narratives df ti = Except.ok (some l) → n ∈ l →
      n.dominant_emotion ∈
        (df.docs.filter (fun d => d.topic == n.topic_id)).map Doc.emotion ∧
      countLabel ((df.docs.filter (fun d => d.topic == n.topic_id)).map
          Doc.emotion) n.dominant_emotion
        = maxLabelCount ((df.docs.filter (fun d => d.topic == n.topic_id)).map
          Doc.emotion) ∧
      ∀ s ∈ (df.docs.filter (fun d => d.topic == n.topic_id)).map Doc.emotion,
        countLabel ((df.docs.filter (fun d => d.topic == n.topic_id)).map
            Doc.emotion) s
          = maxLabelCount ((df.docs.filter (fun d => d.topic == n.topic_id)).map
            Doc.emotion) →
        strLe n.dominant_emotion s = true := by
  intro df ti l n h hn
  obtain ⟨hlen, _, hdom, _, _⟩ := mem_narratives_fields h hn
  have hselne :
      (df.docs.filter (fun d => d.topic == n.topic_id)).map Doc.emotion ≠ [] := by
    rw [ne_eq, List.map_eq_nil_iff]
    intro hnil
    rw [hnil] at hlen
    exact hlen rfl
  obtain ⟨hmem, hcnt, hmin⟩ := seriesMode_headI_spec hselne
  rw [hdom]
  exact ⟨hmem, hcnt, hmin⟩

/-- Witness for C6 (amended) on `dfC6`. -/
theorem C6_witness :
    strLe lC6.headI.dominant_emotion "joy" = true :=
  (C6_dominant_emotion_lex_mode dfC6 (some [ { Topic := 0, Name := none } ])
    lC6 lC6.headI rfl (List.mem_cons_self _ _)).2.2 "joy" (by decide) (by decide)

/-- C7: no Correlation Entry produced by `topic_emotion_correlation` has
topic -1. -/
theorem C7_no_outlier_entries :
    ∀ (df : Df) (es : List CorrEntry) (e : CorrEntry),
      topic_emotion_correlation df = some es → e ∈ es → e.topic ≠ -1 := by
  intro df es e h he
  rw [topic_emotion_correlation] at h
  by_cases htop : df.hasTopic = false
  · rw [if_pos htop] at h
    exact absurd h (by simp)
  · rw [if_neg htop] at h
    simp only [Option.some.injEq] at h
    rw [← h] at he
    rcases List.mem_flatMap.mp he with ⟨t, _, hmem⟩
    by_cases ht : t = -1
    · rw [if_pos ht] at hmem
      exact absurd hmem (List.not_mem_nil e)
    · rw [if_neg ht] at hmem
      rcases List.mem_map.mp hmem with ⟨p, _, hpe⟩
      rw [← hpe]
      exact ht

/-- Witness for C7 on `dfT1`. -/
theorem C7_witness : esT1.headI.topic ≠ -1 :=
  C7_no_outlier_entries dfT1 esT1 esT1.headI rfl (List.mem_cons_self _ _)

/-- C8: every Topic Summary's `document_count` equals the number of corpus
documents bearing its topic id, and its positive and negative percentages
(each rounded independently to one decimal place) sum to at most 100. -/
theorem C8_narrative_invariants :
    ∀ (df : Df) (ti : Option (List TIRow)) (l : List Narrative) (n : Narrative),
      detect_narratives df ti = Except.ok (some l) → n ∈ l →
      n.document_count
        = (df.docs.filter (fun d => d.topic == n.topic_id)).length ∧
      n.positive_pct + n.negative_pct ≤ 100 := by
  intro df ti l n h hn
  obtain ⟨hlen, hdoc, _, hpos, hneg⟩ := mem_narratives_fields h hn
  refine ⟨hdoc, ?_⟩
  rw [hpos, hneg]
  have htpos : 0 < (df.docs.filter (fun d => d.topic == n.topic_id)).length :=
    Nat.pos_of_ne_zero hlen
  have hdisj : ∀ x ∈ df.docs.filter (fun d => d.topic == n.topic_id),
      ¬((x.sentiment == "POSITIVE") = true ∧ (x.sentiment == "NEGATIVE") = true) := by
    intro x _ hx
    obtain ⟨h1, h2⟩ := hx
    rw [beq_iff_eq] at h1 h2
    rw [h1] at h2
    exact absurd h2 (by decide)
  have hsum := length_filter_add_length_filter_le
    (df.docs.filter (fun d => d.topic == n.topic_id)) _ _ hdisj
  apply round1_add_le_hundred
  have ht : (0:ℚ) < ((df.docs.filter (fun d => d.topic == n.topic_id)).length : ℚ) := by
    exact_mod_cast htpos
  have hq : (((df.docs.filter (fun d => d.topic == n.topic_id)).filter
        (fun d => d.sentiment == "POSITIVE")).length : ℚ)
      + (((df.docs.filter (fun d => d.topic == n.topic_id)).filter
        (fun d => d.sentiment == "NEGATIVE")).length : ℚ)
      ≤ ((df.docs.filter (fun d => d.topic == n.topic_id)).length : ℚ) := by
    exact_mod_cast hsum
  rw [div_mul_eq_mul_div, div_mul_eq_mul_div, div_add_div_same, div_le_iff₀ ht]
  linarith

/-- Witness for C8 on `dfT1`. -/
theorem C8_witness :
    lT1.headI.document_count
      = (dfT1.docs.filter (fun d => d.topic == lT1.headI.topic_id)).length ∧
    lT1.headI.positive_pct + lT1.headI.negative_pct ≤ 100 :=
  C8_narrative_invariants dfT1 (some [ { Topic := 0, Name := none } ])
    lT1 lT1.headI rfl (List.mem_cons_self _ _)

/-- C9: `get_insights` always returns at least 3 insights — exactly 3
(mood tier, emotion dominance, sample size, in that order with the mood
statement first) when no Topic Summaries are given, and exactly 4 when
the Topic Summaries argument is present and non-empty. -/
theorem C9_insights_length_and_mood_first :
    ∀ (df : Df) (s e : List (String × ℚ)) (mood : ℚ)
      (narr : Option (List Narrative)),
      (match narr with
        | some (_ :: _) => (get_insights df s e mood narr).length = 4
        | _ => (get_insights df s e mood narr).length = 3) ∧
      (get_insights df s e mood narr).headI =
        (if 70 ≤ mood then
          "🟢 **Highly Positive Mood**: Overall sentiment is very optimistic ("
            ++ fmtQ mood ++ "/100)"
        else if 50 ≤ mood then
          "🟡 **Moderately Positive**: Sentiment leans positive but with some concerns ("
            ++ fmtQ mood ++ "/100)"
        else if 30 ≤ mood then
          "🟠 **Mixed Sentiment**: Balanced between positive and negative signals ("
            ++ fmtQ mood ++ "/100)"
        else
          "🔴 **Negative Mood**: Predominately negative sentiment detected ("
            ++ fmtQ mood ++ "/100)") := by
  intro df s e mood narr
  constructor
  · match narr with
    | none => rfl
    | some [] => rfl
    | some (n :: l) => rfl
  · match narr with
    | none => rfl
    | some [] => rfl
    | some (n :: l) => rfl

/-- C10: `topic_emotion_correlation` is absent (`None`) exactly when the
corpus has no topic column; with a topic column but only outlier topics
(or no documents at all) it returns an empty table instead. -/
theorem C10_correlation_none_iff_no_topic_column :
    ∀ df : Df,
      (topic_emotion_correlation df = none ↔ df.hasTopic = false) ∧
      (df.hasTopic = true → (∀ d ∈ df.docs, d.topic = -1) →
        topic_emotion_correlation df = some []) := by
  intro df
  constructor
  · constructor
    · intro h
      by_contra hcontra
      rw [topic_emotion_correlation, if_neg hcontra] at h
      exact absurd h (by simp)
    · intro h
      rw [topic_emotion_correlation, if_pos h]
  · intro htop hall
    rw [topic_emotion_correlation, if_neg (by simp [htop])]
    congr 1
    rw [List.flatMap_eq_nil_iff]
    intro t ht
    have hmem : t ∈ df.docs.map Doc.topic := mem_firstOccs.mp ht
    rcases List.mem_map.mp hmem with ⟨d, hd, hdt⟩
    rw [if_pos (by rw [← hdt]; exact hall d hd)]

/-- Witness for C10: no topic column gives `None`; a topic column whose
only document is the outlier -1 gives an empty table. -/
theorem C10_witness :
    topic_emotion_correlation { docs := [], hasTopic := false } = none ∧
    topic_emotion_correlation dfC5 = some [] :=
  ⟨((C10_correlation_none_iff_no_topic_column
      { docs := [], hasTopic := false }).1).mpr rfl,
   (C10_correlation_none_iff_no_topic_column dfC5).2 rfl (by decide)⟩

end Mood
